import Mathlib

/-!
Verification development for the E20 processor simulator
(`e20_sim.cpp`, plain simulator) and its cache-enabled variant
(`e20_sim_cache.cpp`).

The machine state, decoder and execution step are shallowly embedded as
executable Lean functions.  Machine integers (`uint16_t` in the source)
are modelled as `Nat` with explicit reduction modulo `2^16` wherever the
C++ code performs an implicit conversion of an `int` arithmetic result
back into a `uint16_t`; copies between `uint16_t` locations are left
unreduced, exactly as the source performs no conversion there.
-/

namespace E20

/-- `NUM_REGS` from both source files: the register-file size. -/
def NUM_REGS : Nat := 8

/-- `MEM_SIZE = 1 << 13` from both source files: the memory size. -/
def MEM_SIZE : Nat := 8192

/-- `REG_SIZE = 1 << 16` from both source files. -/
def REG_SIZE : Nat := 65536

/-- Truncation of an `int` value into a `uint16_t`, as performed by the
C++ assignments of arithmetic results to 16-bit variables. -/
def wrap16 (n : Nat) : Nat := n % 65536

/-- `sign_extend7_func` (identical in `e20_sim.cpp` and
`e20_sim_cache.cpp`): if the most significant bit of the 7-bit
immediate is set, OR in the mask `65408 = 0xFF80`. `imm7 >> 6` is
`imm7 / 64` on the 7-bit values the simulator passes in. -/
def sign_extend7_func (imm7 : Nat) : Nat :=
  if imm7 / 64 = 1 then imm7 ||| 65408 else imm7

/-- `opcode = instruction >> 13` (decode, identical in both files). -/
def opcodeOf (instruction : Nat) : Nat := instruction / 8192

/-- `bits10_12 = (instruction >> 10) & 7`. -/
def bits10_12Of (instruction : Nat) : Nat := instruction / 1024 % 8

/-- `bits7_9 = (instruction >> 7) & 7`. -/
def bits7_9Of (instruction : Nat) : Nat := instruction / 128 % 8

/-- `bits4_6 = (instruction >> 4) & 7`. -/
def bits4_6Of (instruction : Nat) : Nat := instruction / 16 % 8

/-- `bits0_3 = instruction & 15`. -/
def bits0_3Of (instruction : Nat) : Nat := instruction % 16

/-- `bits0_6 = instruction & 127`, before sign extension. -/
def bits0_6Of (instruction : Nat) : Nat := instruction % 128

/-- `bits0_12 = instruction & 8191`: the 13-bit jump target. -/
def bits0_12Of (instruction : Nat) : Nat := instruction % 8192

/-- The architectural machine state of the simulator: program counter,
register file `regs_arr`, memory `memory_arr` and the `halt` flag of
the driver loop.  Registers and memory are modelled as total functions;
the C++ arrays are only ever indexed with values already reduced into
range (`& 7` for registers, `% MEM_SIZE` for memory). -/
structure EState where
  pc : Nat
  regs : Nat → Nat
  mem : Nat → Nat
  halt : Bool

/-- Pointwise update of a register file / memory array. -/
def setIdx (f : Nat → Nat) (i v : Nat) : Nat → Nat :=
  fun j => if j = i then v else f j

/-- The instruction word fetched by the next iteration of the driver
loop: `memory_arr[pc % MEM_SIZE]`. -/
def fetched (s : EState) : Nat := s.mem (s.pc % MEM_SIZE)

/-- One iteration of the `while (!halt)` driver loop of `e20_sim.cpp`
(`main`, lines 153-278): fetch at `pc % MEM_SIZE`, decode, dispatch on
the opcode.  Each branch mirrors the corresponding C++ branch,
including the `regs_arr[0] = 0` forcing that follows the opcode-0
dispatch chain and appears inside the `addi` / `lw` / `slti` branches,
and the absence of that forcing in the `j` / `jal` / `sw` / `jeq`
branches.  An opcode-0 instruction with a selector other than
0,1,2,3,4,8 falls through the selector chain: only the forcing of
register 0 happens and `pc` is not advanced. -/
def step (s : EState) : EState :=
  let instruction := fetched s
  let opcode := opcodeOf instruction
  let bits10_12 := bits10_12Of instruction
  let bits7_9 := bits7_9Of instruction
  let bits4_6 := bits4_6Of instruction
  let bits0_3 := bits0_3Of instruction
  let bits0_6 := sign_extend7_func (bits0_6Of instruction)
  let bits0_12 := bits0_12Of instruction
  if opcode = 0 then
    if bits0_3 = 0 then -- add
      { s with regs := setIdx (setIdx s.regs bits4_6
                 (wrap16 (s.regs bits10_12 + s.regs bits7_9))) 0 0,
               pc := wrap16 (s.pc + 1) }
    else if bits0_3 = 1 then -- sub (uint16 wraparound subtraction)
      { s with regs := setIdx (setIdx s.regs bits4_6
                 (wrap16 (s.regs bits10_12 + 65536 - wrap16 (s.regs bits7_9)))) 0 0,
               pc := wrap16 (s.pc + 1) }
    else if bits0_3 = 2 then -- or
      { s with regs := setIdx (setIdx s.regs bits4_6
                 (s.regs bits10_12 ||| s.regs bits7_9)) 0 0,
               pc := wrap16 (s.pc + 1) }
    else if bits0_3 = 3 then -- and
      { s with regs := setIdx (setIdx s.regs bits4_6
                 (s.regs bits10_12 &&& s.regs bits7_9)) 0 0,
               pc := wrap16 (s.pc + 1) }
    else if bits0_3 = 4 then -- slt (unsigned compare)
      { s with regs := setIdx (setIdx s.regs bits4_6
                 (if s.regs bits10_12 < s.regs bits7_9 then 1 else 0)) 0 0,
               pc := wrap16 (s.pc + 1) }
    else if bits0_3 = 8 then -- jr
      { s with pc := s.regs bits10_12,
               regs := setIdx s.regs 0 0 }
    else -- unrecognized selector: only the register-0 forcing runs
      { s with regs := setIdx s.regs 0 0 }
  else if opcode = 1 then -- addi
    { s with regs := setIdx (setIdx s.regs bits7_9
               (wrap16 (s.regs bits10_12 + bits0_6))) 0 0,
             pc := wrap16 (s.pc + 1) }
  else if opcode = 2 then -- j : halt on a direct self-loop
    { s with halt := if s.pc = bits0_12 then true else s.halt,
             pc := bits0_12 }
  else if opcode = 3 then -- jal
    { s with regs := setIdx s.regs 7 (wrap16 (s.pc + 1)),
             pc := bits0_12 }
  else if opcode = 4 then -- lw
    let address := (s.regs bits10_12 + bits0_6) % MEM_SIZE
    { s with regs := setIdx (setIdx s.regs bits7_9 (s.mem address)) 0 0,
             pc := wrap16 (s.pc + 1) }
  else if opcode = 5 then -- sw
    let address := (s.regs bits10_12 + bits0_6) % MEM_SIZE
    { s with mem := setIdx s.mem address (s.regs bits7_9),
             pc := wrap16 (s.pc + 1) }
  else if opcode = 6 then -- jeq
    if s.regs bits10_12 = s.regs bits7_9 then
      { s with pc := wrap16 (s.pc + 1 + bits0_6) }
    else
      { s with pc := wrap16 (s.pc + 1) }
  else if opcode = 7 then -- slti (unsigned compare with sign-extended imm)
    { s with regs := setIdx (setIdx s.regs bits7_9
               (if s.regs bits10_12 < bits0_6 then 1 else 0)) 0 0,
             pc := wrap16 (s.pc + 1) }
  else
    s

/-- The `while (!halt)` loop of `e20_sim.cpp`, run for at most `n`
iterations. -/
def runFuel : Nat → EState → EState
  | 0, s => s
  | n + 1, s => if s.halt then s else runFuel n (step s)

/-!
## The cache model of `e20_sim_cache.cpp`

A `Block` (struct `Block`) is pure metadata: just its `tag` field,
initialized to `uint16_t(-1) = 65535`.  A row (`Row::blocks_vec`) is an
ordered list of blocks, each modelled by its tag; a level
(`Level::rows_vec`) is a list of rows; `Cache::levels_vec` holds one or
two levels.  (`Row::associativity` and `Level::blocksize` are stored in
the C++ structs but never read by `cache_func`, which recomputes the
geometry from `parts`; they are therefore not carried in the model.)
-/

/-- The sentinel tag a `Block` is constructed with:
`uint16_t tag = -1`, i.e. `65535`. -/
def emptyTag : Nat := 65535

/-- A cache row: the tags of its `blocks_vec`, in recency order. -/
abbrev CRow := List Nat

/-- A cache level: its `rows_vec`. -/
abbrev CLevel := List CRow

/-- struct `Cache`: one or two levels. -/
structure Cache where
  levels_vec : List CLevel
deriving DecidableEq

/-- The `Level` constructor (lines 38-47): `num_of_rows` rows, each a
vector of `associativity` default-constructed blocks (tag `65535`). -/
def mkLevel (num_of_rows associativity : Nat) : CLevel :=
  List.replicate num_of_rows (List.replicate associativity emptyTag)

/-- Reading `parts[i]` (an `int`) into a `uint16_t` local of
`cache_func`. -/
def partVal (parts : List Nat) (i : Nat) : Nat := wrap16 (parts.getD i 0)

/-- `rows = size / (assoc * blocksize)`, assigned into a `uint16_t`. -/
def rowsOf (size assoc blocksize : Nat) : Nat :=
  wrap16 (size / (assoc * blocksize))

/-- `blockid = address / blocksize`. -/
def blockIdOf (address blocksize : Nat) : Nat := address / blocksize

/-- `row_num = blockid % rows`. -/
def rowNumOf (blockid rows : Nat) : Nat := blockid % rows

/-- `tag = blockid / rows`. -/
def tagOf (blockid rows : Nat) : Nat := blockid / rows

/-- The kind of logged cache event: the `status` strings `"SW"`,
`"HIT"`, `"MISS"` passed to `print_log_entry`. -/
inductive CacheStatus where
  | SW
  | HIT
  | MISS
deriving DecidableEq

/-- One call to `print_log_entry`: cache name, status, pc of the access
instruction, accessed address and row number. -/
structure LogEntry where
  cache_name : String
  status : CacheStatus
  pc : Nat
  addr : Nat
  row : Nat
deriving DecidableEq

/-- The scan loop over a row's blocks in `cache_func` (lines 233-241
for L1, 283-291 for L2): the index of the first block whose stored tag
equals the computed tag, if any. -/
def scanRow (row : CRow) (tag : Nat) : Option Nat :=
  row.findIdx? (· == tag)

/-- The replacement update `cache_func` applies to the addressed row of
a probed level (lines 261-276 for L1, 310-324 for L2), identical for
hits, misses and stores: if the tag was found at index `i`, erase the
block at `i` and push a block with that tag at the back; if it was not
found, erase the block at index 0 (the head) and push a block with the
computed tag at the back. -/
def rowAfterAccess (row : CRow) (tag : Nat) : CRow :=
  match scanRow row tag with
  | some i => row.eraseIdx i ++ [tag]
  | none => row.eraseIdx 0 ++ [tag]

/-- The geometry `cache_func` derives from `parts` (lines 196-228):
`(l1blocksize, l1rows, l2blocksize, l2rows)`.  When `parts` has length
3 the L2 parameters keep their zero initialization; for any other
length besides 6, all four stay 0. -/
def configGeom (parts : List Nat) : Nat × Nat × Nat × Nat :=
  if parts.length = 3 then
    (partVal parts 2,
     rowsOf (partVal parts 0) (partVal parts 1) (partVal parts 2),
     0, 0)
  else if parts.length = 6 then
    (partVal parts 2,
     rowsOf (partVal parts 0) (partVal parts 1) (partVal parts 2),
     partVal parts 5,
     rowsOf (partVal parts 3) (partVal parts 4) (partVal parts 5))
  else
    (0, 0, 0, 0)

/-- `cache_func` (lines 175-326): probes L1, logs one event for it,
applies the replacement update, and — when a second level is configured
and the access is a store or an L1 miss — does the same for L2.
Returns the emitted log entries in order together with the updated
cache.  `address` and `index` are the function's `uint16_t`
parameters. -/
def cache_func (address index : Nat) (a_cache : Cache) (parts : List Nat)
    (is_store_word : Bool) : List LogEntry × Cache :=
  let address := wrap16 address
  let index := wrap16 index
  let geom := configGeom parts
  let l1blocksize := geom.1
  let l1rows := geom.2.1
  let l2blocksize := geom.2.2.1
  let l2rows := geom.2.2.2
  let l1blockid := blockIdOf address l1blocksize
  let l1row_num := rowNumOf l1blockid l1rows
  let l1tag := tagOf l1blockid l1rows
  let l2blockid := blockIdOf address l2blocksize
  let l2row_num := rowNumOf l2blockid l2rows
  let l2tag := tagOf l2blockid l2rows
  let l1level := a_cache.levels_vec.getD 0 []
  let l1row := l1level.getD l1row_num []
  let l1tag_was_found := (scanRow l1row l1tag).isSome
  let l1log : LogEntry :=
    ⟨"L1", if is_store_word then .SW
           else if l1tag_was_found then .HIT else .MISS,
     index, address, l1row_num⟩
  let cache1 : Cache :=
    ⟨a_cache.levels_vec.set 0 (l1level.set l1row_num (rowAfterAccess l1row l1tag))⟩
  if cache1.levels_vec.length == 2 && (!l1tag_was_found || is_store_word) then
    let l2level := cache1.levels_vec.getD 1 []
    let l2row := l2level.getD l2row_num []
    let l2tag_was_found := (scanRow l2row l2tag).isSome
    let l2log : LogEntry :=
      ⟨"L2", if is_store_word then .SW
             else if l2tag_was_found then .HIT else .MISS,
       index, address, l2row_num⟩
    ([l1log, l2log],
     ⟨cache1.levels_vec.set 1 (l2level.set l2row_num (rowAfterAccess l2row l2tag))⟩)
  else
    ([l1log], cache1)

/-- The cache-construction part of `main` in `e20_sim_cache.cpp`
(lines 536-587): a 3-field configuration builds an L1-only cache, a
6-field configuration builds L1 and L2, anything else is rejected with
`"Invalid cache config"` (modelled as `none`).  The row counts are
computed with plain integer (floor) division; there is no divisibility
check. -/
def setupCache (parts : List Nat) : Option Cache :=
  if parts.length = 3 then
    let L1size := parts.getD 0 0
    let L1assoc := parts.getD 1 0
    let L1blocksize := parts.getD 2 0
    let l1_rows := L1size / (L1assoc * L1blocksize)
    some ⟨[mkLevel l1_rows L1assoc]⟩
  else if parts.length = 6 then
    let L1size := parts.getD 0 0
    let L1assoc := parts.getD 1 0
    let L1blocksize := parts.getD 2 0
    let L2size := parts.getD 3 0
    let L2assoc := parts.getD 4 0
    let L2blocksize := parts.getD 5 0
    let l1_rows := L1size / (L1assoc * L1blocksize)
    let l2_rows := L2size / (L2assoc * L2blocksize)
    some ⟨[mkLevel l1_rows L1assoc, mkLevel l2_rows L2assoc]⟩
  else
    none

/-- One iteration of the `while (!halt)` loop of `run_e20_simulator`
(`e20_sim_cache.cpp`, lines 328-461).  Identical to `step` on the
architectural state; in addition the `lw` and `sw` branches pass the
computed address, the fetch index, the cache, the configuration `parts`
and the store flag to `cache_func` and keep its updated cache. -/
def stepCached (s : EState) (a_cache : Cache) (parts : List Nat) :
    EState × Cache :=
  let instruction := fetched s
  let opcode := opcodeOf instruction
  let bits10_12 := bits10_12Of instruction
  let bits7_9 := bits7_9Of instruction
  let bits4_6 := bits4_6Of instruction
  let bits0_3 := bits0_3Of instruction
  let bits0_6 := sign_extend7_func (bits0_6Of instruction)
  let bits0_12 := bits0_12Of instruction
  if opcode = 0 then
    if bits0_3 = 0 then -- add
      ({ s with regs := setIdx (setIdx s.regs bits4_6
                 (wrap16 (s.regs bits10_12 + s.regs bits7_9))) 0 0,
                pc := wrap16 (s.pc + 1) }, a_cache)
    else if bits0_3 = 1 then -- sub
      ({ s with regs := setIdx (setIdx s.regs bits4_6
                 (wrap16 (s.regs bits10_12 + 65536 - wrap16 (s.regs bits7_9)))) 0 0,
                pc := wrap16 (s.pc + 1) }, a_cache)
    else if bits0_3 = 2 then -- or
      ({ s with regs := setIdx (setIdx s.regs bits4_6
                 (s.regs bits10_12 ||| s.regs bits7_9)) 0 0,
                pc := wrap16 (s.pc + 1) }, a_cache)
    else if bits0_3 = 3 then -- and
      ({ s with regs := setIdx (setIdx s.regs bits4_6
                 (s.regs bits10_12 &&& s.regs bits7_9)) 0 0,
                pc := wrap16 (s.pc + 1) }, a_cache)
    else if bits0_3 = 4 then -- slt
      ({ s with regs := setIdx (setIdx s.regs bits4_6
                 (if s.regs bits10_12 < s.regs bits7_9 then 1 else 0)) 0 0,
                pc := wrap16 (s.pc + 1) }, a_cache)
    else if bits0_3 = 8 then -- jr
      ({ s with pc := s.regs bits10_12,
                regs := setIdx s.regs 0 0 }, a_cache)
    else
      ({ s with regs := setIdx s.regs 0 0 }, a_cache)
  else if opcode = 1 then -- addi
    ({ s with regs := setIdx (setIdx s.regs bits7_9
               (wrap16 (s.regs bits10_12 + bits0_6))) 0 0,
              pc := wrap16 (s.pc + 1) }, a_cache)
  else if opcode = 2 then -- j
    ({ s with halt := if s.pc = bits0_12 then true else s.halt,
              pc := bits0_12 }, a_cache)
  else if opcode = 3 then -- jal
    ({ s with regs := setIdx s.regs 7 (wrap16 (s.pc + 1)),
              pc := bits0_12 }, a_cache)
  else if opcode = 4 then -- lw: the cache observes the access
    let address := (s.regs bits10_12 + bits0_6) % MEM_SIZE
    let queried := cache_func address (s.pc % MEM_SIZE) a_cache parts false
    ({ s with regs := setIdx (setIdx s.regs bits7_9 (s.mem address)) 0 0,
              pc := wrap16 (s.pc + 1) }, queried.2)
  else if opcode = 5 then -- sw: the cache observes the access
    let address := (s.regs bits10_12 + bits0_6) % MEM_SIZE
    let queried := cache_func address (s.pc % MEM_SIZE) a_cache parts true
    ({ s with mem := setIdx s.mem address (s.regs bits7_9),
              pc := wrap16 (s.pc + 1) }, queried.2)
  else if opcode = 6 then -- jeq
    if s.regs bits10_12 = s.regs bits7_9 then
      ({ s with pc := wrap16 (s.pc + 1 + bits0_6) }, a_cache)
    else
      ({ s with pc := wrap16 (s.pc + 1) }, a_cache)
  else if opcode = 7 then -- slti
    ({ s with regs := setIdx (setIdx s.regs bits7_9
               (if s.regs bits10_12 < bits0_6 then 1 else 0)) 0 0,
              pc := wrap16 (s.pc + 1) }, a_cache)
  else
    (s, a_cache)

/-- The `while (!halt)` loop of `run_e20_simulator`, run for at most
`n` iterations, threading the cache through the memory accesses. -/
def runCachedFuel : Nat → EState → Cache → List Nat → EState × Cache
  | 0, s, c, _ => (s, c)
  | n + 1, s, c, parts =>
      if s.halt then (s, c)
      else
        let r := stepCached s c parts
        runCachedFuel n r.1 r.2 parts

/-!
## Derived projections and concrete fixtures used in the statements
-/

/-- The data address computed by the `sw` branch:
`(regs_arr[bits10_12] + bits0_6) % MEM_SIZE`. -/
def swAddrOf (s : EState) : Nat :=
  (s.regs (bits10_12Of (fetched s)) + sign_extend7_func (bits0_6Of (fetched s)))
    % MEM_SIZE

/-- The L1 row number `cache_func` computes for an address under a
configuration. -/
def l1RowNumOf (address : Nat) (parts : List Nat) : Nat :=
  rowNumOf (blockIdOf (wrap16 address) (configGeom parts).1)
    (configGeom parts).2.1

/-- The L1 tag `cache_func` computes for an address under a
configuration. -/
def l1TagOf (address : Nat) (parts : List Nat) : Nat :=
  tagOf (blockIdOf (wrap16 address) (configGeom parts).1)
    (configGeom parts).2.1

/-- The L2 row number `cache_func` computes for an address under a
configuration. -/
def l2RowNumOf (address : Nat) (parts : List Nat) : Nat :=
  rowNumOf (blockIdOf (wrap16 address) (configGeom parts).2.2.1)
    (configGeom parts).2.2.2

/-- The L2 tag `cache_func` computes for an address under a
configuration. -/
def l2TagOf (address : Nat) (parts : List Nat) : Nat :=
  tagOf (blockIdOf (wrap16 address) (configGeom parts).2.2.1)
    (configGeom parts).2.2.2

/-- Whether the L1 scan of `cache_func` finds the computed tag in the
addressed row (`l1tag_was_found`). -/
def l1HitOn (address : Nat) (a_cache : Cache) (parts : List Nat) : Bool :=
  (scanRow ((a_cache.levels_vec.getD 0 []).getD (l1RowNumOf address parts) [])
    (l1TagOf address parts)).isSome

/-- Whether the L2 scan of `cache_func` finds the computed tag in the
addressed row (`l2tag_was_found`). -/
def l2HitOn (address : Nat) (a_cache : Cache) (parts : List Nat) : Bool :=
  (scanRow ((a_cache.levels_vec.getD 1 []).getD (l2RowNumOf address parts) [])
    (l2TagOf address parts)).isSome

/-- A sequence of data accesses (all loads, pc 0) driven through
`cache_func`, accumulating the log. -/
def accessSeq (parts : List Nat) (c : Cache) : List Nat → List LogEntry × Cache
  | [] => ([], c)
  | a :: rest =>
      let q := cache_func a 0 c parts false
      let r := accessSeq parts q.2 rest
      (q.1 ++ r.1, r.2)

/-- The simulator's initial state: `pc = 0`, all registers and memory
cleared, not halted. -/
def initState : EState := ⟨0, fun _ => 0, fun _ => 0, false⟩

/-- A state whose registers all hold 1 and whose memory holds the
instruction `16389` everywhere: opcode 2 (`j`) with target 5. -/
def jumpState : EState := ⟨0, fun _ => 1, fun _ => 16389, false⟩

/-- A state about to execute `j 0` at `pc = 0` (instruction `16384`). -/
def selfJumpState : EState := ⟨0, fun _ => 0, fun _ => 16384, false⟩

/-- A state about to execute instruction word `5`: opcode 0 with the
unrecognized selector 5. -/
def unknownSelState : EState := ⟨0, fun _ => 3, fun _ => 5, false⟩

/-- The cache built for configuration `16,2,4`. -/
def cache1624 : Cache := ⟨[mkLevel 2 2]⟩

/-- The cache built for configuration `4,1,1,8,1,1`. -/
def twoLevelCache : Cache := ⟨[mkLevel 4 1, mkLevel 8 1]⟩

/-- A cache with no levels (only used to instantiate theorems whose
conclusion does not probe the cache). -/
def emptyCache : Cache := ⟨[]⟩

/-!
## Helper lemmas
-/

set_option maxHeartbeats 2000000 in
/-- The cached step performs exactly the plain architectural step on
the machine state: the two dispatch chains are branch-for-branch
identical. -/
theorem stepCached_arch (s : EState) (c : Cache) (parts : List Nat) :
    (stepCached s c parts).1 = step s := by
  simp only [stepCached, step]
  split_ifs <;> rfl

/-!
## Claims about the execution engine
-/

/-- C1 (counterexample): the claim quantifies over *every* machine
state; at a state whose register 0 already holds 1, executing a `j`
instruction (opcode 2, which never touches the register file and has
no register-0 forcing) leaves register 0 at 1, not 0. -/
theorem c1_reg0_not_universally_zero : (step jumpState).regs 0 = 1 ∧ (1 : Nat) ≠ 0 :=
  ⟨rfl, by decide⟩

set_option maxHeartbeats 4000000 in
set_option maxRecDepth 8000 in
/-- C1 (amended): every single step *preserves* `reg[0] = 0` — for
every machine state whose register 0 holds 0 and every instruction
word, both the plain and the cached fetch-decode-execute step leave
register 0 at 0, regardless of what value the instruction attempted to
write there.  Since the simulator starts with all registers 0, register
0 reads as 0 after every executed instruction. -/
theorem c1_reg0_zero_preserved (s : EState) (c : Cache) (parts : List Nat)
    (h : s.regs 0 = 0) :
    (step s).regs 0 = 0 ∧ ((stepCached s c parts).1).regs 0 = 0 := by
  have h1 : (step s).regs 0 = 0 := by
    simp only [step]
    split_ifs <;> simp [setIdx, h]
  exact ⟨h1, by rw [stepCached_arch]; exact h1⟩

/-- C1 witness: the amended preservation theorem applied at the
initial state. -/
theorem c1_reg0_zero_preserved_witness :
    (step initState).regs 0 = 0 ∧
    ((stepCached initState emptyCache []).1).regs 0 = 0 :=
  c1_reg0_zero_preserved initState emptyCache [] rfl

set_option maxHeartbeats 4000000 in
set_option maxRecDepth 8000 in
/-- C2: a running engine (halt flag clear) sets the halt condition in
one step exactly when the fetched instruction has opcode 2 and its
13-bit literal target equals the raw, unreduced pre-fetch program
counter; this holds for the plain and the cached simulator alike. -/
theorem c2_halt_iff_self_jump (s : EState) (c : Cache) (parts : List Nat)
    (h : s.halt = false) :
    ((step s).halt = true ↔
       opcodeOf (fetched s) = 2 ∧ s.pc = bits0_12Of (fetched s))
    ∧ (((stepCached s c parts).1).halt = true ↔
       opcodeOf (fetched s) = 2 ∧ s.pc = bits0_12Of (fetched s)) := by
  have h1 : (step s).halt = true ↔
      opcodeOf (fetched s) = 2 ∧ s.pc = bits0_12Of (fetched s) := by
    simp only [step]
    split_ifs <;> simp_all
  exact ⟨h1, by rw [stepCached_arch]; exact h1⟩

/-- C2 witness: the halt criterion evaluated on the one-instruction
program `j 0` at `pc = 0`. -/
theorem c2_halt_iff_self_jump_witness :
    ((step selfJumpState).halt = true ↔
       opcodeOf (fetched selfJumpState) = 2 ∧
       selfJumpState.pc = bits0_12Of (fetched selfJumpState))
    ∧ (((stepCached selfJumpState emptyCache []).1).halt = true ↔
       opcodeOf (fetched selfJumpState) = 2 ∧
       selfJumpState.pc = bits0_12Of (fetched selfJumpState)) :=
  c2_halt_iff_self_jump selfJumpState emptyCache [] rfl

set_option maxHeartbeats 4000000 in
set_option maxRecDepth 8000 in
/-- C5: the cache model never affects architectural state.  First, for
every fuel bound, every start state, every cache and every
configuration, the cache-enabled execution loop computes exactly the
same machine state (pc, register file, memory, halt flag) as the plain
loop.  Second, one step changes memory only at the address of an
executed `sw`, where it stores the addressed register's value — so a
stored value persists to the final state if no later store targets its
address. -/
theorem c5_cache_is_observer :
    (∀ (n : Nat) (s : EState) (c : Cache) (parts : List Nat),
       (runCachedFuel n s c parts).1 = runFuel n s)
    ∧ (∀ (s : EState) (a : Nat),
       (step s).mem a =
         if opcodeOf (fetched s) = 5 ∧ a = swAddrOf s
         then s.regs (bits7_9Of (fetched s)) else s.mem a) := by
  constructor
  · intro n
    induction n with
    | zero => intro s c parts; rfl
    | succ n ih =>
      intro s c parts
      simp only [runCachedFuel, runFuel]
      by_cases h : s.halt = true
      · simp [h]
      · simp only [Bool.not_eq_true] at h
        simp only [h, Bool.false_eq_true, if_false]
        rw [stepCached_arch]
        exact ih _ _ _
  · intro s a
    simp only [step, swAddrOf]
    split_ifs <;> simp_all [setIdx]

set_option maxHeartbeats 4000000 in
set_option maxRecDepth 8000 in
/-- C8: a step whose fetched instruction has opcode 0 and a selector
outside {0 (add), 1 (sub), 2 (or), 3 (and), 4 (slt), 8 (jr)} falls
through the selector chain: the program counter, memory and halt flag
are unchanged and every register is unchanged except that register 0 is
forced to 0; the cached simulator additionally leaves the cache
untouched. -/
theorem c8_unknown_selector_frame (s : EState) (c : Cache) (parts : List Nat)
    (h0 : opcodeOf (fetched s) = 0)
    (h1 : bits0_3Of (fetched s) ∉ ([0, 1, 2, 3, 4, 8] : List Nat)) :
    step s = { s with regs := setIdx s.regs 0 0 }
    ∧ stepCached s c parts = ({ s with regs := setIdx s.regs 0 0 }, c) := by
  simp only [List.mem_cons, List.not_mem_nil, or_false, not_or] at h1
  obtain ⟨n0, n1, n2, n3, n4, n8⟩ := h1
  refine ⟨?_, ?_⟩
  · simp only [step]
    rw [if_pos h0, if_neg n0, if_neg n1, if_neg n2, if_neg n3, if_neg n4, if_neg n8]
  · simp only [stepCached]
    rw [if_pos h0, if_neg n0, if_neg n1, if_neg n2, if_neg n3, if_neg n4, if_neg n8]

/-- C8 witness: the frame property evaluated on instruction word 5
(opcode 0, selector 5). -/
theorem c8_unknown_selector_frame_witness :
    step unknownSelState =
      { unknownSelState with regs := setIdx unknownSelState.regs 0 0 }
    ∧ stepCached unknownSelState emptyCache [] =
      ({ unknownSelState with regs := setIdx unknownSelState.regs 0 0 },
       emptyCache) :=
  c8_unknown_selector_frame unknownSelState emptyCache [] rfl (by decide)

/-!
## Helper lemmas about the cache structure
-/

/-- `scanRow` on a nonempty row checks the head first, then the rest
with all indices shifted. -/
theorem scanRow_cons (a : Nat) (l : CRow) (tag : Nat) :
    scanRow (a :: l) tag =
      if a == tag then some 0 else (scanRow l tag).map (· + 1) := by
  simp [scanRow, List.findIdx?_cons, List.findIdx?_succ]

/-- The scan succeeds exactly when the row contains the tag. -/
theorem scanRow_isSome_eq_contains (row : CRow) (tag : Nat) :
    (scanRow row tag).isSome = row.contains tag := by
  induction row with
  | nil => rfl
  | cons a l ih =>
      by_cases h : a = tag
      · subst h
        simp [scanRow_cons, List.contains_cons]
      · have h1 : (a == tag) = false := beq_eq_false_iff_ne.mpr h
        have h2 : (tag == a) = false := beq_eq_false_iff_ne.mpr (Ne.symm h)
        rw [scanRow_cons, List.contains_cons, h1, h2]
        simpa using ih

/-- Erasing the index found by the scan is erasing the first occurrence
of the tag. -/
theorem eraseIdx_scanRow (row : CRow) (tag : Nat) :
    ∀ i, scanRow row tag = some i → row.eraseIdx i = row.erase tag := by
  induction row with
  | nil => intro i h; simp [scanRow] at h
  | cons a l ih =>
      intro i h
      rw [scanRow_cons] at h
      by_cases ha : a = tag
      · subst ha
        simp only [beq_self_eq_true, if_true, Option.some.injEq] at h
        subst h
        rw [List.eraseIdx_cons_zero, List.erase_cons_head]
      · have h1 : (a == tag) = false := beq_eq_false_iff_ne.mpr ha
        rw [h1] at h
        simp only [if_false, Bool.false_eq_true] at h
        obtain ⟨j, hj, hji⟩ := Option.map_eq_some'.mp h
        subst hji
        rw [List.eraseIdx_cons_succ, List.erase_cons_tail (by simp [h1]),
          ih j hj]

/-- The single replacement rule in erase/evict-head form: a found tag
is moved from its position to the tail, an absent tag evicts the head
block and is appended at the tail. -/
theorem rowAfterAccess_eq (row : CRow) (tag : Nat) :
    rowAfterAccess row tag =
      if row.contains tag then row.erase tag ++ [tag]
      else row.drop 1 ++ [tag] := by
  cases h : scanRow row tag with
  | none =>
      have hc : row.contains tag = false := by
        rw [← scanRow_isSome_eq_contains, h]; rfl
      simp only [rowAfterAccess, h, hc, Bool.false_eq_true, if_false,
        List.drop_one]
      cases row <;> rfl
  | some i =>
      have hc : row.contains tag = true := by
        rw [← scanRow_isSome_eq_contains, h]; rfl
      simp only [rowAfterAccess, h, hc, if_true, eraseIdx_scanRow row tag i h]

/-- The replacement preserves the length of a nonempty row: it erases
exactly one block and appends exactly one block. -/
theorem rowAfterAccess_length (row : CRow) (tag : Nat) (h : row ≠ []) :
    (rowAfterAccess row tag).length = row.length := by
  have hlen : 0 < row.length := List.length_pos.mpr h
  rw [rowAfterAccess_eq]
  split_ifs with hc
  · have hm : tag ∈ row := List.elem_iff.mp hc
    rw [List.length_append, List.length_erase_of_mem hm]
    simp
    omega
  · rw [List.length_append, List.length_drop]
    simp
    omega

/-- The replacement never produces an empty row. -/
theorem rowAfterAccess_ne_nil (row : CRow) (tag : Nat) :
    rowAfterAccess row tag ≠ [] := by
  simp only [rowAfterAccess]
  cases scanRow row tag <;> simp

/-- `getD` with default `[]` yields a member of the list or `[]`. -/
theorem getD_mem_or {α : Type} (ls : List (List α)) (n : Nat) :
    ls.getD n [] ∈ ls ∨ ls.getD n [] = [] := by
  rw [List.getD_eq_getElem?_getD]
  cases h : ls[n]? with
  | none => simp
  | some a => exact Or.inl (by simpa using List.getElem?_mem h)

/-- All rows reachable by `getD` from a cache whose rows are all
nonempty are nonempty. -/
theorem rows_nonempty_getD (ls : List CLevel) (n : Nat)
    (hne : ∀ lvl ∈ ls, ∀ r ∈ lvl, r ≠ []) :
    ∀ r ∈ ls.getD n [], r ≠ [] := by
  rcases getD_mem_or ls n with h | h
  · exact hne _ h
  · rw [h]; intro r hr; cases hr

/-- Updating one row of a level by the replacement rule preserves the
lengths of all its rows. -/
theorem map_length_set_level (lvl : CLevel) (rn tag : Nat)
    (h : ∀ r ∈ lvl, r ≠ []) :
    (lvl.set rn (rowAfterAccess (lvl.getD rn []) tag)).map List.length
      = lvl.map List.length := by
  induction lvl generalizing rn with
  | nil => rfl
  | cons a l ih =>
      cases rn with
      | zero =>
          simp only [List.getD_cons_zero, List.set, List.map]
          rw [rowAfterAccess_length a tag (h a (by simp))]
      | succ m =>
          simp only [List.getD_cons_succ, List.set, List.map]
          rw [ih m (fun r hr => h r (by simp [hr]))]

/-- Replacing one level by a level with the same row lengths preserves
the row-length table of the whole cache. -/
theorem map_len_set_levels (ls : List CLevel) (n : Nat) (v : CLevel)
    (h : v.map List.length = (ls.getD n []).map List.length) :
    (ls.set n v).map (List.map List.length) = ls.map (List.map List.length) := by
  induction ls generalizing n with
  | nil => rfl
  | cons a l ih =>
      cases n with
      | zero => simp_all
      | succ m =>
          simp only [List.getD_cons_succ] at h
          simp only [List.set, List.map]
          rw [ih m h]

/-- The level-update expression used by `cache_func` preserves the
row-length table. -/
theorem set_update_map_len (ls : List CLevel) (n rn tag : Nat)
    (hne : ∀ lvl ∈ ls, ∀ r ∈ lvl, r ≠ []) :
    (ls.set n ((ls.getD n []).set rn
        (rowAfterAccess ((ls.getD n []).getD rn []) tag))).map
      (List.map List.length) = ls.map (List.map List.length) :=
  map_len_set_levels _ _ _ (map_length_set_level _ _ _ (rows_nonempty_getD ls n hne))

/-- The level-update expression keeps every row nonempty. -/
theorem set_row_nonempty (lvl : CLevel) (rn tag : Nat)
    (h : ∀ r ∈ lvl, r ≠ []) :
    ∀ r ∈ lvl.set rn (rowAfterAccess (lvl.getD rn []) tag), r ≠ [] := by
  intro r hr
  rcases List.mem_or_eq_of_mem_set hr with h1 | h1
  · exact h r h1
  · rw [h1]; exact rowAfterAccess_ne_nil _ _

/-- Replacing one level by a level with nonempty rows keeps all rows of
the cache nonempty. -/
theorem set_level_nonempty (ls : List CLevel) (n : Nat) (X : CLevel)
    (hX : ∀ r ∈ X, r ≠ []) (h : ∀ lvl ∈ ls, ∀ r ∈ lvl, r ≠ []) :
    ∀ lvl ∈ ls.set n X, ∀ r ∈ lvl, r ≠ [] := by
  intro lvl hlvl
  rcases List.mem_or_eq_of_mem_set hlvl with h1 | h1
  · exact h lvl h1
  · rw [h1]; exact hX

/-- Setting index 0 does not change the entry `getD` reads at index 1. -/
theorem getD_one_set_zero (ls : List CLevel) (X : CLevel) :
    (ls.set 0 X).getD 1 [] = ls.getD 1 [] := by
  rw [List.getD_eq_getElem?_getD, List.getD_eq_getElem?_getD,
    List.getElem?_set_ne (by decide : (0 : Nat) ≠ 1)]

/-- Projection of an explicitly built cache. -/
@[simp] theorem levels_vec_mk (ls : List CLevel) :
    (Cache.mk ls).levels_vec = ls := rfl

set_option maxHeartbeats 2000000 in
/-- The log entries `cache_func` emits, characterized by the two hit
predicates: one L1 entry always, plus one L2 entry exactly when two
levels are configured and the access is a store or an L1 miss. -/
theorem cache_func_logs (address index : Nat) (c : Cache) (parts : List Nat)
    (st : Bool) :
    (cache_func address index c parts st).1 =
      if c.levels_vec.length = 2 ∧ (l1HitOn address c parts = false ∨ st = true) then
        [⟨"L1", if st then .SW else if l1HitOn address c parts then .HIT else .MISS,
          wrap16 index, wrap16 address, l1RowNumOf address parts⟩,
         ⟨"L2", if st then .SW else if l2HitOn address c parts then .HIT else .MISS,
          wrap16 index, wrap16 address, l2RowNumOf address parts⟩]
      else
        [⟨"L1", if st then .SW else if l1HitOn address c parts then .HIT else .MISS,
          wrap16 index, wrap16 address, l1RowNumOf address parts⟩] := by
  obtain ⟨ls⟩ := c
  simp only [cache_func, levels_vec_mk]
  rw [getD_one_set_zero]
  split
  next hb =>
    have hp : ls.length = 2 ∧ (l1HitOn address ⟨ls⟩ parts = false ∨ st = true) := by
      simp only [List.length_set, Bool.and_eq_true, beq_iff_eq, Bool.or_eq_true,
        Bool.not_eq_true'] at hb
      simpa [l1HitOn, l1RowNumOf, l1TagOf] using hb
    rw [if_pos hp]
    simp only [l1HitOn, l2HitOn, l1RowNumOf, l1TagOf, l2RowNumOf, l2TagOf,
      levels_vec_mk]
  next hb =>
    have hp : ¬(ls.length = 2 ∧ (l1HitOn address ⟨ls⟩ parts = false ∨ st = true)) := by
      intro hcon
      apply hb
      simp only [List.length_set, Bool.and_eq_true, beq_iff_eq, Bool.or_eq_true,
        Bool.not_eq_true']
      refine ⟨hcon.1, ?_⟩
      simpa [l1HitOn, l1RowNumOf, l1TagOf] using hcon.2
    rw [if_neg hp]
    simp only [l1HitOn, l1RowNumOf, l1TagOf, levels_vec_mk]

set_option maxHeartbeats 2000000 in
/-- The L1 level after a query: the addressed row is replaced by the
LRU update, for loads and stores alike. -/
theorem cache_func_snd_l1 (address index : Nat) (c : Cache) (parts : List Nat)
    (st : Bool) :
    ((cache_func address index c parts st).2).levels_vec.getD 0 [] =
      (c.levels_vec.getD 0 []).set (l1RowNumOf address parts)
        (rowAfterAccess
          ((c.levels_vec.getD 0 []).getD (l1RowNumOf address parts) [])
          (l1TagOf address parts)) := by
  obtain ⟨ls⟩ := c
  rcases ls with _ | ⟨l1, lt⟩
  · rfl
  · simp only [cache_func, levels_vec_mk]
    split <;> rfl

set_option maxHeartbeats 2000000 in
/-- The L2 level after a query: its addressed row is replaced by the
LRU update exactly when two levels are configured and the access is a
store or an L1 miss; otherwise L2 is untouched. -/
theorem cache_func_snd_l2 (address index : Nat) (c : Cache) (parts : List Nat)
    (st : Bool) :
    ((cache_func address index c parts st).2).levels_vec.getD 1 [] =
      if c.levels_vec.length = 2 ∧ (l1HitOn address c parts = false ∨ st = true) then
        (c.levels_vec.getD 1 []).set (l2RowNumOf address parts)
          (rowAfterAccess
            ((c.levels_vec.getD 1 []).getD (l2RowNumOf address parts) [])
            (l2TagOf address parts))
      else c.levels_vec.getD 1 [] := by
  obtain ⟨ls⟩ := c
  simp only [cache_func, levels_vec_mk]
  split
  next hb =>
    have hp : ls.length = 2 ∧ (l1HitOn address ⟨ls⟩ parts = false ∨ st = true) := by
      simp only [List.length_set, Bool.and_eq_true, beq_iff_eq, Bool.or_eq_true,
        Bool.not_eq_true'] at hb
      simpa [l1HitOn, l1RowNumOf, l1TagOf] using hb
    rw [if_pos hp]
    obtain ⟨a, b, rfl⟩ := List.length_eq_two.mp hp.1
    rfl
  next hb =>
    have hp : ¬(ls.length = 2 ∧ (l1HitOn address ⟨ls⟩ parts = false ∨ st = true)) := by
      intro hcon
      apply hb
      simp only [List.length_set, Bool.and_eq_true, beq_iff_eq, Bool.or_eq_true,
        Bool.not_eq_true']
      refine ⟨hcon.1, ?_⟩
      simpa [l1HitOn, l1RowNumOf, l1TagOf] using hcon.2
    rw [if_neg hp]
    exact getD_one_set_zero ls _

/-- The tag is bounded by the address: two floor divisions only
shrink. -/
theorem tagOf_le_address (address bs rc : Nat) :
    tagOf (blockIdOf address bs) rc ≤ address :=
  le_trans (Nat.div_le_self _ _) (Nat.div_le_self _ _)

/-- The L1 tag of an in-range data address is at most 8191. -/
theorem l1TagOf_le (address : Nat) (parts : List Nat) (ha : address < 8192) :
    l1TagOf address parts ≤ 8191 := by
  have hw : wrap16 address = address := Nat.mod_eq_of_lt (by omega)
  unfold l1TagOf
  rw [hw]
  exact le_trans (tagOf_le_address address _ _) (by omega)

/-- The L2 tag of an in-range data address is at most 8191. -/
theorem l2TagOf_le (address : Nat) (parts : List Nat) (ha : address < 8192) :
    l2TagOf address parts ≤ 8191 := by
  have hw : wrap16 address = address := Nat.mod_eq_of_lt (by omega)
  unfold l2TagOf
  rw [hw]
  exact le_trans (tagOf_le_address address _ _) (by omega)

/-- A row holding only tags above 8191 cannot contain a tag of at most
8191. -/
theorem contains_of_low (row : CRow) (tg : Nat) (ht : tg ≤ 8191)
    (hrow : ∀ t ∈ row, 8191 < t) : row.contains tg = false := by
  by_contra hc
  simp only [Bool.not_eq_false] at hc
  have hm : tg ∈ row := List.elem_iff.mp hc
  exact absurd (hrow tg hm) (by omega)

/-- Every block of a freshly constructed level holds the sentinel tag,
which is above 8191. -/
theorem mkLevel_rows_high (n a : Nat) :
    ∀ row ∈ mkLevel n a, ∀ t ∈ row, 8191 < t := by
  intro row hrow t ht
  simp only [mkLevel] at hrow
  rw [List.eq_of_mem_replicate hrow] at ht
  rw [List.eq_of_mem_replicate ht]
  simp [emptyTag]

/-- Every block of a cache built by the configuration code holds the
sentinel tag, which is above 8191. -/
theorem setupCache_rows_high (parts : List Nat) (c : Cache)
    (h : setupCache parts = some c) :
    ∀ lvl ∈ c.levels_vec, ∀ row ∈ lvl, ∀ t ∈ row, 8191 < t := by
  unfold setupCache at h
  split_ifs at h with h3 h6
  · obtain rfl := Option.some.inj h
    intro lvl hlvl
    simp only [levels_vec_mk, List.mem_singleton] at hlvl
    subst hlvl
    exact mkLevel_rows_high _ _
  · obtain rfl := Option.some.inj h
    intro lvl hlvl
    simp only [levels_vec_mk, List.mem_cons, List.not_mem_nil, or_false] at hlvl
    rcases hlvl with rfl | rfl <;> exact mkLevel_rows_high _ _

/-- On a cache whose blocks all hold tags above 8191, the L1 scan of an
in-range address fails. -/
theorem l1HitOn_fresh (address : Nat) (c : Cache) (parts : List Nat)
    (ha : address < 8192)
    (hrows : ∀ lvl ∈ c.levels_vec, ∀ row ∈ lvl, ∀ t ∈ row, 8191 < t) :
    l1HitOn address c parts = false := by
  unfold l1HitOn
  rw [scanRow_isSome_eq_contains]
  apply contains_of_low _ _ (l1TagOf_le address parts ha)
  intro t ht
  rcases getD_mem_or (c.levels_vec.getD 0 []) (l1RowNumOf address parts) with h | h
  · rcases getD_mem_or c.levels_vec 0 with h0 | h0
    · exact hrows _ h0 _ h t ht
    · rw [h0] at h; cases h
  · rw [h] at ht; cases ht

/-- On a cache whose blocks all hold tags above 8191, the L2 scan of an
in-range address fails. -/
theorem l2HitOn_fresh (address : Nat) (c : Cache) (parts : List Nat)
    (ha : address < 8192)
    (hrows : ∀ lvl ∈ c.levels_vec, ∀ row ∈ lvl, ∀ t ∈ row, 8191 < t) :
    l2HitOn address c parts = false := by
  unfold l2HitOn
  rw [scanRow_isSome_eq_contains]
  apply contains_of_low _ _ (l2TagOf_le address parts ha)
  intro t ht
  rcases getD_mem_or (c.levels_vec.getD 1 []) (l2RowNumOf address parts) with h | h
  · rcases getD_mem_or c.levels_vec 1 with h0 | h0
    · exact hrows _ h0 _ h t ht
    · rw [h0] at h; cases h
  · rw [h] at ht; cases ht

/-!
## Claims about the cache model
-/

/-- C3: the replacement update is one single rule, identical for load
hits, load misses and stores, on both levels: a found tag is erased
from its position and appended at the tail, an absent tag evicts the
block at index 0 (never a specially-scanned empty slot) and is appended
at the tail.  Consequently, starting from a fresh associativity-2 row,
the tag sequence A, B, A, C (here 0, 1, 0, 2) ends with the row
[A, C]: the fourth access evicts B, not A. -/
theorem c3_single_lru_rule :
    (∀ (row : CRow) (tag : Nat),
       rowAfterAccess row tag =
         if row.contains tag then row.erase tag ++ [tag]
         else row.drop 1 ++ [tag])
    ∧ (∀ (address index : Nat) (c : Cache) (parts : List Nat) (st : Bool),
       ((cache_func address index c parts st).2).levels_vec.getD 0 [] =
         (c.levels_vec.getD 0 []).set (l1RowNumOf address parts)
           (rowAfterAccess
             ((c.levels_vec.getD 0 []).getD (l1RowNumOf address parts) [])
             (l1TagOf address parts)))
    ∧ (∀ (address index : Nat) (c : Cache) (parts : List Nat) (st : Bool),
       ((cache_func address index c parts st).2).levels_vec.getD 1 [] =
         if c.levels_vec.length = 2 ∧
             (l1HitOn address c parts = false ∨ st = true) then
           (c.levels_vec.getD 1 []).set (l2RowNumOf address parts)
             (rowAfterAccess
               ((c.levels_vec.getD 1 []).getD (l2RowNumOf address parts) [])
               (l2TagOf address parts))
         else c.levels_vec.getD 1 [])
    ∧ List.foldl rowAfterAccess (List.replicate 2 emptyTag) [0, 1, 0, 2] = [0, 2]
    ∧ (1 : Nat) ∉ List.foldl rowAfterAccess (List.replicate 2 emptyTag) [0, 1, 0, 2]
    ∧ (0 : Nat) ∈ List.foldl rowAfterAccess (List.replicate 2 emptyTag) [0, 1, 0, 2] :=
  ⟨rowAfterAccess_eq, cache_func_snd_l1, cache_func_snd_l2,
   by decide, by decide, by decide⟩

/-- C4: with two configured levels, L2 is probed — and logs exactly one
event — exactly when the access is a store or a load that missed in L1;
a load that hits in L1 yields exactly the single L1 log entry and
leaves the L2 level untouched, and a store yields exactly one entry per
level. -/
theorem c4_l2_probe_discipline (address index : Nat) (c : Cache)
    (parts : List Nat) (st : Bool) (h2 : c.levels_vec.length = 2) :
    ((cache_func address index c parts st).1.map LogEntry.cache_name =
       if st = true ∨ l1HitOn address c parts = false
       then ["L1", "L2"] else ["L1"])
    ∧ (st = false → l1HitOn address c parts = true →
       ((cache_func address index c parts st).2).levels_vec.getD 1 [] =
         c.levels_vec.getD 1 []) := by
  constructor
  · rw [cache_func_logs]
    by_cases hst : st = true <;>
      by_cases hh : l1HitOn address c parts = false <;>
        simp [hst, hh, h2]
  · intro hst hhit
    rw [cache_func_snd_l2, if_neg]
    intro hcon
    rcases hcon.2 with h | h
    · rw [hhit] at h; cases h
    · rw [hst] at h; cases h

/-- C4 witness: a store on a fresh two-level cache logs one event per
level; the probe discipline instantiated at that access. -/
theorem c4_l2_probe_discipline_witness :
    ((cache_func 0 0 twoLevelCache [4, 1, 1, 8, 1, 1] true).1.map
        LogEntry.cache_name =
       if true = true ∨ l1HitOn 0 twoLevelCache [4, 1, 1, 8, 1, 1] = false
       then ["L1", "L2"] else ["L1"])
    ∧ (true = false → l1HitOn 0 twoLevelCache [4, 1, 1, 8, 1, 1] = true →
       ((cache_func 0 0 twoLevelCache [4, 1, 1, 8, 1, 1] true).2).levels_vec.getD 1 [] =
         twoLevelCache.levels_vec.getD 1 []) :=
  c4_l2_probe_discipline 0 0 twoLevelCache [4, 1, 1, 8, 1, 1] true (by decide)

/-- C6 (counterexample): the configuration `10,2,4` has size 10 not
divisible by associativity × blocksize = 8, yet the configuration code
accepts it, silently deriving row count `10 / 8 = 1` by floor division
and constructing the cache; no divisibility check or ConfigError exists
in the code. -/
theorem c6_no_divisibility_check :
    setupCache [10, 2, 4] = some ⟨[mkLevel 1 2]⟩ ∧ ¬ (2 * 4 ∣ 10) := by
  constructor
  · rfl
  · decide

/-- C6 (amended): the run is aborted with a configuration error exactly
when the comma-separated cache configuration has neither 3 nor 6
fields; a size that is not evenly divisible by associativity × block
size is accepted, with the row count rounded down. -/
theorem c6_config_error_iff_field_count (parts : List Nat) :
    setupCache parts = none ↔ parts.length ≠ 3 ∧ parts.length ≠ 6 := by
  unfold setupCache
  split_ifs with h3 h6 <;> simp_all

/-- C7 (counterexample): for the configuration `16,2,4` the derived
row count is 2, and address 8 maps to row 0 with tag
`(8 / 4) / 2 = 1` — not tag 2 as claimed. -/
theorem c7_address8_tag_is_one :
    (configGeom [16, 2, 4]).2.1 = 2
    ∧ l1RowNumOf 8 [16, 2, 4] = 0
    ∧ l1TagOf 8 [16, 2, 4] = 1
    ∧ l1TagOf 8 [16, 2, 4] ≠ 2 := by decide

/-- C7 (amended): with a single level configured as size 16,
associativity 2, blocksize 4, the derived row count is 2; addresses 0
and 8 both map to row 0, with tags 0 and 1 respectively; the first
access to each is logged Miss and a repeated access to address 0
afterwards is logged Hit. -/
theorem c7_scenario_16_2_4 :
    setupCache [16, 2, 4] = some cache1624
    ∧ (configGeom [16, 2, 4]).2.1 = 2
    ∧ l1RowNumOf 0 [16, 2, 4] = 0 ∧ l1TagOf 0 [16, 2, 4] = 0
    ∧ l1RowNumOf 8 [16, 2, 4] = 0 ∧ l1TagOf 8 [16, 2, 4] = 1
    ∧ (accessSeq [16, 2, 4] cache1624 [0, 8, 0]).1.map LogEntry.status
        = [CacheStatus.MISS, CacheStatus.MISS, CacheStatus.HIT]
    ∧ (accessSeq [16, 2, 4] cache1624 [0, 8, 0]).1.map LogEntry.row
        = [0, 0, 0] := by decide

set_option maxHeartbeats 2000000 in
/-- C9: at construction every row of a level has length equal to the
configured associativity, and every `cache_func` query preserves the
length of every row of every level (each probed row loses exactly one
block and gains exactly one block), for every access kind. -/
theorem c9_row_lengths_invariant :
    (∀ (num_of_rows associativity : Nat),
       ∀ r ∈ mkLevel num_of_rows associativity, r.length = associativity)
    ∧ (∀ (address index : Nat) (c : Cache) (parts : List Nat) (st : Bool),
       (∀ lvl ∈ c.levels_vec, ∀ r ∈ lvl, r ≠ []) →
       ((cache_func address index c parts st).2).levels_vec.map
           (List.map List.length)
         = c.levels_vec.map (List.map List.length)) := by
  constructor
  · intro n a r hr
    have hre : r = List.replicate a emptyTag :=
      List.eq_of_mem_replicate (by simpa [mkLevel] using hr)
    rw [hre]
    exact List.length_replicate a emptyTag
  · intro address index c parts st hne
    obtain ⟨ls⟩ := c
    simp only [cache_func, levels_vec_mk]
    split
    · refine Eq.trans
        (set_update_map_len (ls.set 0 _) 1 _ _ ?_)
        (set_update_map_len ls 0 _ _ hne)
      exact set_level_nonempty ls 0 _
        (set_row_nonempty _ _ _ (rows_nonempty_getD ls 0 hne)) hne
    · exact set_update_map_len ls 0 _ _ hne

/-- C9 witness: the row-length table of the `16,2,4` cache is unchanged
by a load at address 0. -/
theorem c9_row_lengths_invariant_witness :
    ((cache_func 0 0 cache1624 [16, 2, 4] false).2).levels_vec.map
        (List.map List.length)
      = cache1624.levels_vec.map (List.map List.length) :=
  c9_row_lengths_invariant.2 0 0 cache1624 [16, 2, 4] false (by decide)

/-- C10: the sentinel tag of a fresh block is `uint16_t(-1) = 65535`;
the computed tag of an in-range data address (always reduced modulo
8192 by the callers of `cache_func`) is at most 8191, so a lookup can
never match a never-filled sentinel block: a freshly constructed cache
reports only misses on a load. -/
theorem c10_sentinel_never_hit :
    emptyTag = 65535
    ∧ (∀ (address blocksize rows : Nat), address < 8192 →
        tagOf (blockIdOf address blocksize) rows ≤ 8191)
    ∧ (∀ (associativity tag : Nat), tag ≤ 8191 →
        (List.replicate associativity emptyTag).contains tag = false)
    ∧ (∀ (address index : Nat) (parts : List Nat) (c : Cache),
        address < 8192 → setupCache parts = some c →
        ∀ e ∈ (cache_func address index c parts false).1,
          e.status = CacheStatus.MISS) := by
  refine ⟨rfl, ?_, ?_, ?_⟩
  · intro a bs rc ha
    exact le_trans (tagOf_le_address a bs rc) (by omega)
  · intro assoc tg ht
    apply contains_of_low _ _ ht
    intro t htm
    rw [List.eq_of_mem_replicate htm]
    simp [emptyTag]
  · intro address index parts c ha hsetup e he
    have hr := setupCache_rows_high parts c hsetup
    have h1 := l1HitOn_fresh address c parts ha hr
    rw [cache_func_logs] at he
    split at he
    · have h2 := l2HitOn_fresh address c parts ha hr
      simp only [List.mem_cons, List.not_mem_nil, or_false] at he
      rcases he with rfl | rfl <;> simp [h1, h2]
    · simp only [List.mem_singleton] at he
      subst he
      simp [h1]

/-- C10 witness: the tag bound, the sentinel miss and the all-miss
first load instantiated on the `16,2,4` cache at address 5. -/
theorem c10_sentinel_never_hit_witness :
    tagOf (blockIdOf 5 4) 2 ≤ 8191
    ∧ (List.replicate 2 emptyTag).contains 5 = false
    ∧ ∀ e ∈ (cache_func 5 0 cache1624 [16, 2, 4] false).1,
        e.status = CacheStatus.MISS :=
  ⟨c10_sentinel_never_hit.2.1 5 4 2 (by decide),
   c10_sentinel_never_hit.2.2.1 2 5 (by decide),
   c10_sentinel_never_hit.2.2.2 5 0 [16, 2, 4] cache1624 (by decide) (by decide)⟩

end E20

